import Mathlib

/-!
Verification of the checkpointed repetition runner
(`src/autotm/algorithms_for_tuning/utils/repeater.py`).

The Python module is shallowly embedded: strings are Lean `String`s, the
filesystem is an association list from paths to lists of lines, Python
exceptions are an explicit error type propagated through `Except`, and the
asyncio scheduling loop is a step relation on the scheduler's
(in-flight slots, backlog) state.
-/

namespace Repeater

/-- Python exceptions that the embedded code can raise. -/
inductive PyErr where
  | valueError  -- e.g. `str.index` when the substring is absent, `strptime` failure
  | typeError   -- e.g. `os.stat(None)` inside `os.path.exists(None)`
  deriving DecidableEq, Repr

/-! ### Python string primitives used by the module -/

/-- Escape of one character inside Python `repr` of a string, for the chosen
quote character `q`.  Covers the printable-ASCII fragment the repeater
manipulates (backslash, the quote itself, tab, newline, carriage return). -/
def pyCharEscape (q c : Char) : List Char :=
  if c = '\\' then ['\\', '\\']
  else if c = q then ['\\', c]
  else if c = '\t' then ['\\', 't']
  else if c = '\n' then ['\\', 'n']
  else if c = '\r' then ['\\', 'r']
  else [c]

/-- Python `repr` of a `str` (printable-ASCII fragment): single quotes unless
the string contains a single quote and no double quote. -/
def pyStrRepr (s : String) : String :=
  let q : Char := if s.data.contains '\'' && !(s.data.contains '"') then '"' else '\''
  String.mk (q :: (s.data.flatMap (pyCharEscape q) ++ [q]))

/-- Python `repr` of a `list[str]`, as produced by an f-string interpolation
such as `f"VOLATILE: {rep_run.volatile_args}"`. -/
def pyStrListRepr (xs : List String) : String :=
  "[" ++ String.intercalate ", " (xs.map pyStrRepr) ++ "]"

/-- Index of the first occurrence of `pat` in `s` (`str.find` / the successful
case of `str.index`), as a character index. -/
def findSubstrIdx (pat : List Char) : List Char → Option Nat
  | [] => if pat.isPrefixOf ([] : List Char) then some 0 else none
  | c :: t =>
    if pat.isPrefixOf (c :: t) then some 0
    else (findSubstrIdx pat t).map (· + 1)

/-- `str.find` on Lean strings. -/
def strFindIdx (s pat : String) : Option Nat :=
  findSubstrIdx pat.data s.data

/-- `pat in s` for Python strings. -/
def hasSubstrS (s pat : String) : Bool :=
  (strFindIdx s pat).isSome

/-- Python `str.endswith`. -/
def strEndsWithS (s t : String) : Bool :=
  t.data.isSuffixOf s.data

/-- Python `str.startswith`. -/
def strStartsWithS (s t : String) : Bool :=
  t.data.isPrefixOf s.data

/-- ASCII whitespace stripped by Python `str.strip()`. -/
def isPyWS (c : Char) : Bool :=
  c = ' ' || c = '\t' || c = '\n' || c = '\r' || c = Char.ofNat 11 || c = Char.ofNat 12

/-- Python `str.strip()` (ASCII fragment). -/
def pyStrip (s : String) : String :=
  String.mk (((s.data.dropWhile isPyWS).reverse.dropWhile isPyWS).reverse)

/-- Helper of `pySplitChar`: split at each occurrence of `sep`, accumulating
the current piece in reverse. -/
def pySplitCharAux (sep : Char) : List Char → List Char → List (List Char)
  | [], acc => [acc.reverse]
  | c :: cs, acc =>
    if c = sep then acc.reverse :: pySplitCharAux sep cs []
    else pySplitCharAux sep cs (c :: acc)

/-- Python `str.split(sep)` for a one-character separator: empty pieces are
kept and `"".split(sep) == [""]`. -/
def pySplitChar (sep : Char) (s : String) : List String :=
  (pySplitCharAux sep s.data []).map String.mk

/-- Helper of `parseField`: the value of a digit run, `none` on a non-digit. -/
def digitsValAux : List Char → Nat → Option Nat
  | [], acc => some acc
  | c :: cs, acc =>
    if c.isDigit then digitsValAux cs (acc * 10 + (c.toNat - 48)) else none

/-- Truthiness of an `Optional[str]`: `None` and `""` are falsy. -/
def optStrTruthy : Option String → Bool
  | none => false
  | some s => s != ""

/-- `os.path.join` for the flat relative components the repeater builds. -/
def osPathJoin (a b : String) : String :=
  if strStartsWithS b "/" then b
  else if a = "" || strEndsWithS a "/" then a ++ b
  else a ++ "/" ++ b

/-! ### The filesystem model

A file is a list of lines (its content split on newlines); the filesystem is
an association list in which the most recent write of a path shadows older
entries. -/

/-- Filesystem state: path ↦ lines. -/
abbrev FS := List (String × List String)

/-- Content of the file at `p`, if it exists. -/
def fsLookup (fs : FS) (p : String) : Option (List String) :=
  (fs.find? (fun e => e.1 == p)).map (fun e => e.2)

/-- `os.path.exists` on a present path. -/
def fsExists (fs : FS) (p : String) : Bool :=
  (fsLookup fs p).isSome

/-- Overwrite (or create) the file at `p`. -/
def fsWrite (fs : FS) (p : String) (content : List String) : FS :=
  (p, content) :: fs

/-- Open at `p` in append mode and write one line (creating the file if
absent), as `open(path, "a")` followed by `f.write(record + "\n")`. -/
def fsAppendLine (fs : FS) (p : String) (line : String) : FS :=
  fsWrite fs p ((fsLookup fs p).getD [] ++ [line])

/-! ### The run descriptor and checkpoint records -/

/-- `RepetitionRun` (frozen dataclass): one command invocation instance.
`uuid.UUID` values are modelled as strings. -/
structure RepetitionRun where
  uid : String
  repetition_attempt : Nat
  cmd : String
  workdir : String
  volatile_args : List String
  idempotent_args : List String
  logfile : String
  stdout_logfile : String
  deriving DecidableEq, Repr

/-- `RepetitionRun.args`: full argument list, volatile arguments first. -/
def RepetitionRun.args (r : RepetitionRun) : List String :=
  r.volatile_args ++ r.idempotent_args

/-- `FULL_RECORD_SYMBOL`: terminal sentinel of a complete checkpoint line. -/
def FULL_RECORD_SYMBOL : String := "END"

/-- The marker searched for by `_get_idempotent_checkpoint_record`. -/
def IDEMPOTENT_MARKER : String := "IDEMPOTENT:"

/-- `Repeater._get_checkpoint_record`: the checkpoint line serialized for a
run.  The f-string interpolates the volatile argument list through Python
`repr`. -/
def getCheckpointRecord (r : RepetitionRun) : String :=
  "VOLATILE: " ++ pyStrListRepr r.volatile_args ++ "\t" ++
    "IDEMPOTENT: " ++ toString r.repetition_attempt ++ "\t" ++
    r.cmd ++ "\t" ++ String.intercalate " " r.idempotent_args ++ "\t" ++
    FULL_RECORD_SYMBOL

/-- The part of a checkpoint record that precedes the canonical
`IDEMPOTENT:` marker for a given volatile argument list. -/
def volatileChunk (volatileArgs : List String) : String :=
  "VOLATILE: " ++ pyStrListRepr volatileArgs ++ "\t"

/-- `Repeater._get_idempotent_checkpoint_record` on a raw record string:
`record[record.index("IDEMPOTENT:"):]`.  `none` models the `ValueError`
raised by `str.index` when the marker is absent. -/
def getIdempotentFromRecord (record : String) : Option String :=
  (strFindIdx record IDEMPOTENT_MARKER).map (fun i => String.mk (record.data.drop i))

/-- `Repeater._get_idempotent_checkpoint_record` on a `RepetitionRun`:
serialize first, then cut at the marker. -/
def getIdempotentRun (r : RepetitionRun) : Option String :=
  getIdempotentFromRecord (getCheckpointRecord r)

/-! ### Checkpoint loading and saving -/

/-- The set comprehension inside `_load_and_prepare_checkpoint`: keep the
stripped lines ending in the sentinel and cut each at the marker; a marker-free
line raises `ValueError`. -/
def loadLines (lines : List String) : Except PyErr (List String) :=
  (lines.filter (fun l => strEndsWithS (pyStrip l) FULL_RECORD_SYMBOL)).mapM
    (fun l =>
      match getIdempotentFromRecord (pyStrip l) with
      | none => Except.error PyErr.valueError
      | some k => Except.ok k)

/-- `Repeater._load_and_prepare_checkpoint`.  When both the configured and the
previous checkpoint paths are truthy, the previous file (if present) is copied
over the configured one; the missing-file case only warns.  The subsequent
`os.path.exists(self.checkpoint_path)` call raises `TypeError` when the
configured path is `None`, because `os.stat(None)` raises `TypeError` and
`os.path.exists` catches only `OSError` and `ValueError`. -/
def loadAndPrepareCheckpoint (checkpointPath prevPath : Option String) (fs : FS) :
    Except PyErr (FS × List String) :=
  let fs1 :=
    if optStrTruthy checkpointPath && optStrTruthy prevPath then
      match prevPath, checkpointPath with
      | some prev, some cp =>
        match fsLookup fs prev with
        | none => fs                       -- warn and continue without copying
        | some content => fsWrite fs cp content  -- shutil.copy(prev, cp)
      | _, _ => fs
    else fs
  match checkpointPath with
  | none => Except.error PyErr.typeError   -- os.path.exists(None)
  | some cp =>
    match fsLookup fs1 cp with
    | some lines => (loadLines lines).map (fun ks => (fs1, ks))
    | none => Except.ok (fs1, [])

/-- `Repeater._save_to_checkpoint`: append one record line when a checkpoint
path is configured, otherwise do nothing. -/
def saveToCheckpoint (checkpointPath : Option String) (r : RepetitionRun) (fs : FS) : FS :=
  match checkpointPath with
  | none => fs
  | some p => if p = "" then fs else fsAppendLine fs p (getCheckpointRecord r)

/-- Counterexample input for C1: no volatile argument mentions the marker. -/
def c1RunPlain : RepetitionRun :=
  ⟨"u1", 0, "cmd", "wd", [], ["--dataset", "d"], "lf1", "sf1"⟩

/-- Counterexample input for C1: a volatile argument contains `IDEMPOTENT:`,
so `str.index` finds the marker inside the serialized volatile list first. -/
def c1RunMarked : RepetitionRun :=
  ⟨"u2", 0, "cmd", "wd", ["IDEMPOTENT:x"], ["--dataset", "d"], "lf2", "sf2"⟩

/-- Witness input for the amended C1. -/
def c1WitA : RepetitionRun :=
  ⟨"u1", 1, "algorithm", "wd", ["--tag", "t1", "--log-file", "a.log"],
    ["--dataset", "ds", "--foo"], "a.log", "sa.log"⟩

/-- Witness input for the amended C1: same identity projection, different
id and volatile arguments. -/
def c1WitB : RepetitionRun :=
  ⟨"u2", 1, "algorithm", "wd", ["--tag", "t2", "--log-file", "b.log"],
    ["--dataset", "ds", "--foo"], "b.log", "sb.log"⟩

/-- The idempotent key as the specification describes it: the identity
projection `attempt`, `command`, `idempotentArgs` followed by the sentinel,
i.e. the part of a checkpoint record from the canonical `IDEMPOTENT:` marker
through `END`. -/
def idempotentKeyStr (attempt : Nat) (cmd : String) (idemArgs : List String) : String :=
  "IDEMPOTENT: " ++ toString attempt ++ "\t" ++ cmd ++ "\t" ++
    String.intercalate " " idemArgs ++ "\t" ++ FULL_RECORD_SYMBOL

/-! ### Process execution (`_execute_run`) -/

/-- The ASCII single-quote character the failure message's f-string places
around the command and the argument list. -/
def pyQuote : String := String.mk [Char.ofNat 39]

/-- The message of the exception raised by `_execute_run` on a non-zero exit
code; `{rep_run.args}` interpolates the full argument list through `repr`. -/
def runFailureMsg (r : RepetitionRun) (retCode : Int) : String :=
  "Return code " ++ toString retCode ++ " != 0 for run with uid " ++ r.uid ++
    " (repetition " ++ toString r.repetition_attempt ++ ") with cmd " ++
    pyQuote ++ r.cmd ++ pyQuote ++ " and args " ++ pyQuote ++
    pyStrListRepr (RepetitionRun.args r) ++ pyQuote

/-- `Repeater._execute_run`: the spawned process's combined stdout/stderr is
written to the run's stdout log file (mode `"w"`); the process's exit code and
output are parameters of the embedding.  A non-zero exit code raises after the
log file is written; exit code 0 appends the run's checkpoint record. -/
def executeRun (checkpointPath : Option String) (r : RepetitionRun) (retCode : Int)
    (procOutput : List String) (fs : FS) : FS × Except String Unit :=
  let fs1 := fsWrite fs r.stdout_logfile procOutput
  if retCode ≠ 0 then (fs1, Except.error (runFailureMsg r retCode))
  else (saveToCheckpoint checkpointPath r fs1, Except.ok ())

/-- Witness input for C5. -/
def c5Run : RepetitionRun :=
  ⟨"u5", 0, "cmd", "wd", ["--tag", "t"], ["--dataset", "d"], "run.log", "out.log"⟩

/-! ### The scheduling loop (`run_repetitions`) -/

/-- A scheduled coroutine, identified by its eventual outcome: `ok` for a run
whose process exits 0, `error msg` for one whose `_execute_run` raises. -/
abbrev Task := Except String Unit

/-- `Repeater._check_for_exceptions`: retrieve each finished future's result,
catch the exception and log it (`logger.exception`); the returned list is the
sequence of logged error messages — the function itself never propagates. -/
def checkForExceptions (done : List Task) : List String :=
  done.filterMap (fun d =>
    match d with
    | Except.error e => some e
    | Except.ok _ => none)

/-- Scheduler state of the bounded branch: `run_slots` (in-flight futures)
and `processes` (the not-yet-scheduled backlog). -/
structure SchedState where
  slots : List Task
  backlog : List Task

/-- Python slice `l[:n]`, including the negative-index convention. -/
def pySliceTo (n : Int) (l : List Task) : List Task :=
  if 0 ≤ n then l.take n.toNat else l.take (l.length - (-n).toNat)

/-- Python slice `l[n:]`, including the negative-index convention. -/
def pySliceFrom (n : Int) (l : List Task) : List Task :=
  if 0 ≤ n then l.drop n.toNat else l.drop (l.length - (-n).toNat)

/-- One refill of the in-flight set (lines 221–223): `free_slots =
max_parallel_processes - len(pending)`, `run_slots = list(pending) +
processes[:free_slots]`, `processes = processes[free_slots:] if
len(processes) > free_slots else []`. -/
def refill (n : Int) (pending : List Task) (backlog : List Task) : SchedState :=
  let freeSlots : Int := n - pending.length
  ⟨pending ++ pySliceTo freeSlots backlog,
    if (backlog.length : Int) > freeSlots then pySliceFrom freeSlots backlog else []⟩

/-- The initial state of the bounded branch (lines 215–216): `run_slots =
processes[:N]`, `processes = processes[N:] if len(processes) > N else []`. -/
def boundedSeed (n : Int) (procs : List Task) : SchedState :=
  ⟨pySliceTo n procs,
    if (procs.length : Int) > n then pySliceFrom n procs else []⟩

/-- A complete execution of the bounded `while len(run_slots) > 0` loop,
recording the concatenated output of `_check_for_exceptions` over the
harvested `done` sets.  Each iteration `asyncio.wait(..., FIRST_COMPLETED)`
splits the in-flight set into a non-empty finished part and a pending part
(in arbitrary order), logs the finished failures, and refills. -/
inductive SchedTrace (n : Int) : SchedState → List String → Prop
  | halt (s : SchedState) (h : s.slots = []) : SchedTrace n s []
  | step (s : SchedState) (done pending : List Task) (log : List String)
      (hne : done ≠ [])
      (hsplit : s.slots.Perm (done ++ pending))
      (htail : SchedTrace n (refill n pending s.backlog) log) :
      SchedTrace n s (checkForExceptions done ++ log)

/-- Errors logged by the unbounded branch (lines 226–229): the `else` branch
runs `await asyncio.wait(processes)` and returns; no future's result is ever
retrieved and `_check_for_exceptions` is never called, so the repeater logs
no run failure there. -/
def unboundedLoggedErrors (_procs : List Task) : List String := []

/-! ### Configuration expansion (`_prepare_configurations`) -/

/-- One entry of `cfg["configurations"]`. -/
structure AlgConfig where
  cmd : String
  args : String
  workdir : String
  repetitions : Nat
  deriving DecidableEq, Repr

/-- The configuration the repeater iterates over: `cfg["datasets"]` and
`cfg["configurations"]`. -/
structure RepeaterCfg where
  datasets : List String
  configurations : List AlgConfig
  deriving DecidableEq, Repr

/-- `log_file_path = os.path.join(self.shared_log_dir, f"run-log-{run_uid}.log")`. -/
def logFilePathFor (sharedLogDir uid : String) : String :=
  osPathJoin sharedLogDir ("run-log-" ++ uid ++ ".log")

/-- The per-run stdout/stderr capture path. -/
def stdoutLogPathFor (sharedLogDir uid : String) : String :=
  osPathJoin sharedLogDir ("stdout-stderr-run-log-" ++ uid ++ ".log")

/-- `volatile_cmd_args = ["--tag", self.run_tag, "--log-file", log_file_path]`. -/
def volatileArgsFor (tag logFilePath : String) : List String :=
  ["--tag", tag, "--log-file", logFilePath]

/-- The `RepetitionRun` built for one (dataset, configuration, attempt)
triple.  `uuid.uuid4()` is modelled by the ambient `uidGen` supply and
`os.path.abspath` by the ambient `abspath` function. -/
def buildRun (tag sharedLogDir : String) (abspath : String → String)
    (d : String) (c : AlgConfig) (i : Nat) (uid : String) : RepetitionRun :=
  { uid := uid
    repetition_attempt := i
    cmd := c.cmd
    workdir := abspath c.workdir
    volatile_args := volatileArgsFor tag (logFilePathFor sharedLogDir uid)
    idempotent_args := "--dataset" :: d :: pySplitChar ' ' c.args
    logfile := logFilePathFor sharedLogDir uid
    stdout_logfile := stdoutLogPathFor sharedLogDir uid }

/-- The body of the innermost loop of `_prepare_configurations`: build the
run, extract its idempotent record (`ValueError` would propagate), skip it
when the record is in the checkpoint set, otherwise yield it. -/
def expandCandidate (checkpoint : List String) (tag sharedLogDir : String)
    (uidGen : String → AlgConfig → Nat → String) (abspath : String → String)
    (d : String) (c : AlgConfig) (i : Nat) : Except PyErr (Option RepetitionRun) :=
  match getIdempotentRun (buildRun tag sharedLogDir abspath d c i (uidGen d c i)) with
  | none => Except.error PyErr.valueError
  | some record =>
    Except.ok (if checkpoint.contains record then none
      else some (buildRun tag sharedLogDir abspath d c i (uidGen d c i)))

/-- `Repeater._prepare_configurations` for an already-loaded checkpoint set:
three nested loops over datasets, configurations and `range(repetitions)`;
the generator is consumed into a list, in loop order. -/
def prepareConfigurations (cfg : RepeaterCfg) (checkpoint : List String)
    (tag sharedLogDir : String) (uidGen : String → AlgConfig → Nat → String)
    (abspath : String → String) : Except PyErr (List RepetitionRun) :=
  (cfg.datasets.mapM (fun d =>
      cfg.configurations.mapM (fun c =>
        (List.range c.repetitions).mapM
          (expandCandidate checkpoint tag sharedLogDir uidGen abspath d c)))).map
    (fun nested => (nested.flatten.flatten).filterMap id)

/-- The expansion as the specification words it: one run per
(dataset, configuration, attempt-index) triple whose idempotent key —
attempt, command and `["--dataset", dataset] ++ split(args)` up to the
sentinel — is not in the checkpoint set; triples whose key is present are
skipped. -/
def specExpansion (cfg : RepeaterCfg) (checkpoint : List String)
    (tag sharedLogDir : String) (uidGen : String → AlgConfig → Nat → String)
    (abspath : String → String) : List RepetitionRun :=
  (cfg.datasets.map (fun d =>
    (cfg.configurations.map (fun c =>
      ((List.range c.repetitions).filter (fun i =>
          !(checkpoint.contains
              (idempotentKeyStr i c.cmd ("--dataset" :: d :: pySplitChar ' ' c.args))))).map
        (fun i => buildRun tag sharedLogDir abspath d c i (uidGen d c i)))).flatten)).flatten

/-- Witness configuration for C2. -/
def c2Alg : AlgConfig := ⟨"python", "--a --b", "wd", 2⟩

/-- Witness configuration for C2. -/
def c2Cfg : RepeaterCfg := ⟨["ds"], [c2Alg]⟩

/-- Witness checkpoint set for C2: attempt 0 is already recorded. -/
def c2Ckpt : List String := [idempotentKeyStr 0 "python" ["--dataset", "ds", "--a", "--b"]]

/-! ### Checkpoint discovery (`extract_datetime` / `find_checkpoints`) -/

/-- A `datetime.datetime` value (date and time fields only; the repeater's
format has second resolution). -/
structure PyDateTime where
  year : Nat
  month : Nat
  day : Nat
  hour : Nat
  minute : Nat
  second : Nat
  deriving DecidableEq, Repr

/-- Injective encoding of an in-range datetime into `Nat`, order-isomorphic
to Python's lexicographic `datetime` comparison because `strptimeDT` only
produces fields within the radices used here (month ≤ 12 < 13, day ≤ 31 < 32,
hour < 24, minute < 60, second ≤ 61 < 62). -/
def dtKey (dt : PyDateTime) : Nat :=
  ((((dt.year * 13 + dt.month) * 32 + dt.day) * 24 + dt.hour) * 60 + dt.minute) * 62 + dt.second

def isLeapYear (y : Nat) : Bool :=
  (y % 4 = 0 && y % 100 ≠ 0) || y % 400 = 0

def daysInMonth (y m : Nat) : Nat :=
  if m = 2 then (if isLeapYear y then 29 else 28)
  else if m = 4 || m = 6 || m = 9 || m = 11 then 30
  else 31

/-- One numeric `strptime` field: at most `maxLen` digits. -/
def parseField (s : String) (maxLen : Nat) : Option Nat :=
  if s.data.length = 0 || maxLen < s.data.length then none else digitsValAux s.data 0

/-- `datetime.strptime(s, "%Y-%m-%dT%H-%M-%S")`: `none` models the
`ValueError` on any mismatch, including out-of-range calendar fields. -/
def strptimeDT (s : String) : Option PyDateTime :=
  match pySplitChar 'T' s with
  | [datePart, timePart] =>
    match pySplitChar '-' datePart, pySplitChar '-' timePart with
    | [ys, ms, ds], [hs, mins, secs] =>
      match parseField ys 4, parseField ms 2, parseField ds 2,
            parseField hs 2, parseField mins 2, parseField secs 2 with
      | some y, some mo, some d, some h, some mi, some sec =>
        if 1 ≤ y && y ≤ 9999 && 1 ≤ mo && mo ≤ 12 && 1 ≤ d && d ≤ daysInMonth y mo &&
            h ≤ 23 && mi ≤ 59 && sec ≤ 61 then
          some ⟨y, mo, d, h, mi, sec⟩
        else none
      | _, _, _, _, _, _ => none
    | _, _ => none
  | _ => none

/-- Zero-padded decimal rendering of one `strftime` field. -/
def padNum (w : Nat) (n : Nat) : String :=
  String.mk (List.replicate (w - (toString n).length) '0') ++ toString n

/-- `datetime.strftime(DATETIME_FORMAT)` with `DATETIME_FORMAT =
"%Y-%m-%dT%H-%M-%S"`. -/
def formatDT (dt : PyDateTime) : String :=
  padNum 4 dt.year ++ "-" ++ padNum 2 dt.month ++ "-" ++ padNum 2 dt.day ++ "T" ++
    padNum 2 dt.hour ++ "-" ++ padNum 2 dt.minute ++ "-" ++ padNum 2 dt.second

/-- `os.path.basename` for slash-separated paths. -/
def osBasename (p : String) : String :=
  (pySplitChar '/' p).getLastD ""

/-- The root part of `os.path.splitext`: cut at the last dot, except that the
leading dots of the final component never start an extension. -/
def splitextRoot (b : String) : String :=
  let cs := b.data
  let lead := cs.takeWhile (fun c => c = '.')
  let rest := cs.drop lead.length
  match rest.reverse.findIdx? (fun c => c = '.') with
  | none => b
  | some k => String.mk (lead ++ rest.take (rest.length - 1 - k))

/-- `extract_datetime`: basename, drop the extension, take the part after the
last underscore, parse it with `strptime`.  `none` models the `ValueError`. -/
def extract_datetime (filename : String) : Option PyDateTime :=
  strptimeDT ((pySplitChar '_' (splitextRoot (osBasename filename))).getLastD "")

/-- Whether a path matches the glob pattern
`f"{checkpoint_dir}/{checkpoint_prefix}_*.txt"`; `*` matches any run of
characters without a path separator. -/
def globCkptMatch (checkpointDir pfx : String) (path : String) : Bool :=
  let pre := checkpointDir ++ "/" ++ pfx ++ "_"
  strStartsWithS path pre && strEndsWithS path ".txt" &&
    decide (pre.data.length + 4 ≤ path.data.length) &&
    !(((path.data.drop pre.data.length).take
        (path.data.length - pre.data.length - 4)).contains '/')

/-- Insertion into a descending-sorted keyed list; an element moves past
exactly the strictly-larger keys, so equal keys keep their original order
(the stability of Python `sorted(..., reverse=True)`). -/
def insertDesc (x : String × PyDateTime) :
    List (String × PyDateTime) → List (String × PyDateTime)
  | [] => [x]
  | y :: ys => if dtKey x.2 < dtKey y.2 then y :: insertDesc x ys else x :: y :: ys

/-- `sorted(files, key=extract_datetime, reverse=True)` on an
already-decorated list: stable descending sort by the parsed timestamp. -/
def sortKeyedDesc : List (String × PyDateTime) → List (String × PyDateTime)
  | [] => []
  | x :: xs => insertDesc x (sortKeyedDesc xs)

/-- Decorate each file with its sort key, `extract_datetime`; the first
unparsable name raises (`none`), as `sorted`'s key computation would. -/
def attachKeys : List String → Option (List (String × PyDateTime))
  | [] => some []
  | f :: fs =>
    match extract_datetime f, attachKeys fs with
    | some dt, some rest => some ((f, dt) :: rest)
    | _, _ => none

/-- `find_checkpoints`: glob for `<dir>/<prefix>_*.txt` (the directory's
files are the `allFiles` parameter), sort matches by embedded timestamp in
descending order, return the newest as the previous checkpoint — `none` when
there is no match — together with the fresh checkpoint path for the current
timestamp `now`. -/
def find_checkpoints (allFiles : List String) (checkpointDir pfx : String)
    (now : PyDateTime) : Except PyErr (Option String × String) :=
  match attachKeys (allFiles.filter (globCkptMatch checkpointDir pfx)) with
  | none => Except.error PyErr.valueError
  | some keyed =>
    Except.ok (((sortKeyedDesc keyed).map Prod.fst).head?,
      checkpointDir ++ "/" ++ pfx ++ "_" ++ formatDT now ++ ".txt")

/-- Truthiness of the `Optional[int]` concurrency bound: `None` and `0` are
falsy in `if max_parallel_processes:`. -/
def optIntTruthy : Option Int → Bool
  | none => false
  | some n => n != 0

/-- Which branch `run_repetitions` takes: `true` is the bounded loop. -/
def schedulerUsesBoundedLoop (maxParallel : Option Int) : Bool :=
  optIntTruthy maxParallel

/-- The set of runs started at once at the top of the chosen branch: the
bounded branch seeds `processes[:N]`; the unbounded branch awaits every
process at once. -/
def initialLaunchSet (maxParallel : Option Int) (procs : List Task) : List Task :=
  if optIntTruthy maxParallel then (boundedSeed (maxParallel.getD 0) procs).slots
  else procs

end Repeater

namespace Repeater

/-! ### Lemmas about substring search -/

theorem isPrefixOfIff {l l' : List Char} : l.isPrefixOf l' = true ↔ l <+: l' :=
  List.isPrefixOf_iff_prefix

theorem findSubstrIdx_of_isPrefixOf {pat s : List Char} (h : pat.isPrefixOf s) :
    findSubstrIdx pat s = some 0 := by
  cases s <;> simp [findSubstrIdx, h]

theorem findSubstrIdx_isSome_of_drop {pat : List Char} :
    ∀ {s : List Char} (i : Nat), pat.isPrefixOf (s.drop i) →
      (findSubstrIdx pat s).isSome := by
  intro s
  induction s with
  | nil =>
    intro i h
    simp only [List.drop_nil] at h
    simp [findSubstrIdx, h]
  | cons c t ih =>
    intro i h
    match i with
    | 0 =>
      simp only [List.drop_zero] at h
      simp [findSubstrIdx, h]
    | j + 1 =>
      simp only [List.drop_succ_cons] at h
      have := ih j h
      simp only [findSubstrIdx]
      by_cases hp : pat.isPrefixOf (c :: t) <;> simp [hp, this]

theorem findSubstrIdx_append {pat b : List Char} (a : List Char)
    (hb : pat.isPrefixOf b)
    (hnot : ∀ i, i < a.length → pat.isPrefixOf ((a ++ b).drop i) = false) :
    findSubstrIdx pat (a ++ b) = some a.length := by
  induction a with
  | nil =>
    simpa using findSubstrIdx_of_isPrefixOf hb
  | cons c a' ih =>
    have h0 : pat.isPrefixOf (c :: (a' ++ b)) = false := by
      simpa using hnot 0 (by simp)
    have ih' : findSubstrIdx pat (a' ++ b) = some a'.length := by
      refine ih (fun i hi => ?_)
      simpa [List.drop_succ_cons] using hnot (i + 1) (by simpa using hi)
    simp [findSubstrIdx, h0, ih']

/-- If `x ++ y = z ++ w` and `x` is no longer than `z`, then `x` is a prefix
of `z`. -/
theorem prefix_left_of_append_eq {x y z w : List Char}
    (h : x ++ y = z ++ w) (hl : x.length ≤ z.length) : x <+: z := by
  have hx : (z ++ w).take x.length = x := by
    rw [← h, List.take_left]
  rw [List.take_append_of_le_length hl] at hx
  rw [← hx]
  exact List.take_prefix _ _

/-- The decisive positional fact: in `a ++ b`, where `a` ends in a tab
character, the pattern is tab-free and absent from `a`, and the pattern starts
`b`, the first occurrence of the pattern is exactly at the boundary. -/
theorem findSubstrIdx_tab_boundary {pat b : List Char} (a₀ : List Char)
    (hpat_tab : '\t' ∉ pat)
    (hnotin : findSubstrIdx pat (a₀ ++ ['\t']) = none)
    (hb : pat.isPrefixOf b) :
    findSubstrIdx pat ((a₀ ++ ['\t']) ++ b) = some (a₀ ++ ['\t']).length := by
  refine findSubstrIdx_append (a₀ ++ ['\t']) hb (fun i hi => ?_)
  by_contra hocc
  have hocc' : pat.isPrefixOf (((a₀ ++ ['\t']) ++ b).drop i) = true := by
    revert hocc
    cases pat.isPrefixOf (((a₀ ++ ['\t']) ++ b).drop i) <;> simp
  have hi' : i ≤ (a₀ ++ ['\t']).length := le_of_lt hi
  rw [List.drop_append_of_le_length hi'] at hocc'
  have hpref : pat <+: ((a₀ ++ ['\t']).drop i ++ b) :=
    isPrefixOfIff.mp hocc'
  obtain ⟨t, ht⟩ := hpref
  by_cases hlen : pat.length ≤ ((a₀ ++ ['\t']).drop i).length
  · -- the occurrence lies wholly inside `a`: contradicts absence from `a`
    have : pat <+: (a₀ ++ ['\t']).drop i :=
      prefix_left_of_append_eq ht hlen
    have : (findSubstrIdx pat (a₀ ++ ['\t'])).isSome :=
      findSubstrIdx_isSome_of_drop i (isPrefixOfIff.mpr this)
    rw [hnotin] at this
    simp at this
  · -- the occurrence covers the trailing tab: contradicts tab-freeness
    push_neg at hlen
    have hsub : (a₀ ++ ['\t']).drop i <+: pat :=
      prefix_left_of_append_eq ht.symm (le_of_lt hlen)
    have htab : '\t' ∈ (a₀ ++ ['\t']).drop i := by
      have hi₀ : i ≤ a₀.length := by
        have := hi
        simp only [List.length_append, List.length_cons, List.length_nil] at this
        omega
      rw [List.drop_append_of_le_length hi₀]
      simp
    exact hpat_tab (hsub.sublist.mem htab)

theorem string_mk_data (s : String) : String.mk s.data = s := rfl

theorem strData_append (s t : String) : (s ++ t).data = s.data ++ t.data := rfl

theorem strEq_of_data {s t : String} (h : s.data = t.data) : s = t := by
  cases s; cases t; cases h; rfl

/-- Cutting a record of the shape `volatileChunk ++ key` at the first
`IDEMPOTENT:` marker returns exactly `key`, provided the volatile chunk does
not itself contain the marker. -/
theorem getIdempotentFromRecord_chunk (volatileArgs : List String)
    (attempt : Nat) (cmd : String) (idemArgs : List String)
    (h : hasSubstrS (volatileChunk volatileArgs) IDEMPOTENT_MARKER = false) :
    getIdempotentFromRecord
        (volatileChunk volatileArgs ++ idempotentKeyStr attempt cmd idemArgs) =
      some (idempotentKeyStr attempt cmd idemArgs) := by
  have hnone : findSubstrIdx IDEMPOTENT_MARKER.data (volatileChunk volatileArgs).data = none := by
    unfold hasSubstrS strFindIdx at h
    cases hfi : findSubstrIdx IDEMPOTENT_MARKER.data (volatileChunk volatileArgs).data with
    | none => rfl
    | some v => rw [hfi] at h; simp at h
  have hA : (volatileChunk volatileArgs).data =
      ("VOLATILE: " ++ pyStrListRepr volatileArgs).data ++ [ '\t' ] := by
    show (("VOLATILE: " ++ pyStrListRepr volatileArgs) ++ "\t").data = _
    rw [strData_append]
  have hkey : IDEMPOTENT_MARKER.data <+: (idempotentKeyStr attempt cmd idemArgs).data := by
    have hk : (idempotentKeyStr attempt cmd idemArgs).data =
        "IDEMPOTENT: ".data ++ ((toString attempt).data ++ "\t".data ++ cmd.data ++ "\t".data ++
          (String.intercalate " " idemArgs).data ++ "\t".data ++ FULL_RECORD_SYMBOL.data) := by
      simp only [idempotentKeyStr, strData_append, List.append_assoc]
    rw [hk]
    exact List.IsPrefix.trans (by decide) (List.prefix_append _ _)
  have hmain := @findSubstrIdx_tab_boundary
      IDEMPOTENT_MARKER.data
      ((idempotentKeyStr attempt cmd idemArgs).data)
      ("VOLATILE: " ++ pyStrListRepr volatileArgs).data
      (by decide)
      (by rw [← hA]; exact hnone)
      (isPrefixOfIff.mpr hkey)
  unfold getIdempotentFromRecord strFindIdx
  rw [strData_append, hA, hmain, Option.map_some']
  rw [List.drop_left]

end Repeater

namespace Repeater

/-! ### Claims C3 and C10 -/

/-- C3: the claim states that with `checkpoint_path = None` every checkpoint
operation is a no-op and `_load_and_prepare_checkpoint` returns the empty set
without raising.  On the code, `_save_to_checkpoint` is indeed a no-op, but
`_load_and_prepare_checkpoint` reaches `os.path.exists(None)` and raises
`TypeError` instead of returning the empty set: the guard present in
`_save_to_checkpoint` is missing at line 133. -/
theorem load_none_raises_typeError_and_save_none_noop :
    ∀ (prev : Option String) (fs : FS) (r : RepetitionRun),
      loadAndPrepareCheckpoint none prev fs = Except.error PyErr.typeError ∧
      saveToCheckpoint none r fs = fs := by
  intro prev fs r
  exact ⟨rfl, rfl⟩

/-- A checkpoint record decomposes as volatile chunk followed by the
canonical idempotent key. -/
theorem getCheckpointRecord_decompose (r : RepetitionRun) :
    getCheckpointRecord r =
      volatileChunk r.volatile_args ++
        idempotentKeyStr r.repetition_attempt r.cmd r.idempotent_args := by
  apply strEq_of_data
  simp only [getCheckpointRecord, volatileChunk, idempotentKeyStr, strData_append,
    List.append_assoc]

/-- Key extraction on a `RepetitionRun` whose serialized volatile chunk does
not contain the `IDEMPOTENT:` marker yields the canonical idempotent key. -/
theorem getIdempotentRun_eq (r : RepetitionRun)
    (h : hasSubstrS (volatileChunk r.volatile_args) IDEMPOTENT_MARKER = false) :
    getIdempotentRun r =
      some (idempotentKeyStr r.repetition_attempt r.cmd r.idempotent_args) := by
  rw [getIdempotentRun, getCheckpointRecord_decompose]
  exact getIdempotentFromRecord_chunk _ _ _ _ h

/-! ### Claim C1 -/

/-- C1 (counterexample): the claim promises byte-equal idempotent keys for
*arbitrary* volatile arguments, but `record.index("IDEMPOTENT:")` returns the
first occurrence of the marker, which may lie inside the `repr` of the
volatile argument list.  These two runs agree on `attempt`, `command` and
`idempotentArgs`, yet their extracted keys differ. -/
theorem idempotent_keys_differ_for_marked_volatile :
    c1RunPlain.repetition_attempt = c1RunMarked.repetition_attempt ∧
    c1RunPlain.cmd = c1RunMarked.cmd ∧
    c1RunPlain.idempotent_args = c1RunMarked.idempotent_args ∧
    getIdempotentRun c1RunPlain ≠ getIdempotentRun c1RunMarked := by
  refine ⟨rfl, rfl, rfl, ?_⟩
  decide

/-- C1 (amended): for any two runs with equal `attempt`, `command` and
`idempotentArgs`, whose serialized volatile chunks do not contain the
substring `IDEMPOTENT:` (true of every volatile argument list the expander
builds from marker-free tags and log paths), the extracted idempotent keys
are byte-equal, and equal to the substring of the record from the canonical
`IDEMPOTENT:` marker through the trailing `END` sentinel. -/
theorem idempotent_key_equivalence_marker_free (r₁ r₂ : RepetitionRun)
    (hatt : r₁.repetition_attempt = r₂.repetition_attempt)
    (hcmd : r₁.cmd = r₂.cmd)
    (hidem : r₁.idempotent_args = r₂.idempotent_args)
    (h₁ : hasSubstrS (volatileChunk r₁.volatile_args) IDEMPOTENT_MARKER = false)
    (h₂ : hasSubstrS (volatileChunk r₂.volatile_args) IDEMPOTENT_MARKER = false) :
    getIdempotentRun r₁ =
        some (idempotentKeyStr r₁.repetition_attempt r₁.cmd r₁.idempotent_args) ∧
    getIdempotentRun r₁ = getIdempotentRun r₂ := by
  have e₁ := getIdempotentRun_eq r₁ h₁
  have e₂ := getIdempotentRun_eq r₂ h₂
  refine ⟨e₁, ?_⟩
  rw [e₁, e₂, hatt, hcmd, hidem]

theorem idempotent_key_equivalence_marker_free_witness :
    getIdempotentRun c1WitA = some (idempotentKeyStr 1 "algorithm" ["--dataset", "ds", "--foo"]) ∧
    getIdempotentRun c1WitA = getIdempotentRun c1WitB :=
  idempotent_key_equivalence_marker_free c1WitA c1WitB rfl rfl rfl
    (by decide) (by decide)

/-! ### Claim C4 -/

/-- C4: a line enters the checkpoint set only if its stripped form ends with
the `END` sentinel — lines failing the sentinel test are discarded and have no
effect on loading — and a file holding one well-formed record followed by a
truncated line loads exactly the well-formed record's key. -/
theorem sentinel_filtering_and_truncated_record :
    (∀ lines : List String,
        loadLines lines =
          loadLines (lines.filter (fun l => strEndsWithS (pyStrip l) FULL_RECORD_SYMBOL))) ∧
    loadAndPrepareCheckpoint (some "ck.txt") none
        [("ck.txt", ["VOLATILE: []\tIDEMPOTENT: 0\tcmd\t--dataset d\tEND",
                     "VOLATILE: []\tIDEMPOTENT: 1\tcmd\t--dataset d"])] =
      Except.ok ([("ck.txt", ["VOLATILE: []\tIDEMPOTENT: 0\tcmd\t--dataset d\tEND",
                     "VOLATILE: []\tIDEMPOTENT: 1\tcmd\t--dataset d"])],
        ["IDEMPOTENT: 0\tcmd\t--dataset d\tEND"]) := by
  constructor
  · intro lines
    simp [loadLines, List.filter_filter]
  · rfl

/-! ### Filesystem and substring lemmas for C5 -/

theorem hasSubstrS_sandwich (a p b : String) : hasSubstrS (a ++ p ++ b) p = true := by
  unfold hasSubstrS strFindIdx
  have hsplit : (a ++ p ++ b).data = a.data ++ (p.data ++ b.data) := by
    simp only [strData_append, List.append_assoc]
  have hpref : p.data.isPrefixOf ((a ++ p ++ b).data.drop a.data.length) = true := by
    rw [hsplit, List.drop_left]
    exact isPrefixOfIff.mpr (List.prefix_append _ _)
  exact findSubstrIdx_isSome_of_drop a.data.length hpref

theorem fsLookup_write_self (fs : FS) (p : String) (c : List String) :
    fsLookup (fsWrite fs p c) p = some c := by
  simp [fsLookup, fsWrite]

theorem fsLookup_write_ne (fs : FS) (p q : String) (c : List String) (h : q ≠ p) :
    fsLookup (fsWrite fs q c) p = fsLookup fs p := by
  simp [fsLookup, fsWrite, List.find?_cons, h]

/-! ### Claim C5 -/

/-- C5: `_execute_run` appends the run's checkpoint record if and only if the
exit code is 0.  On a non-zero exit code it raises an error whose message is
the formatted failure string — which contains the run's id, attempt, command,
argument-list `repr` and exit code as substrings — and the checkpoint file is
unchanged by the run; on exit code 0 it succeeds and the configured
checkpoint file gains exactly the run's record.  (The run's stdout log file
is assumed distinct from the checkpoint file, as the expander arranges.) -/
theorem execute_run_checkpoints_iff_success :
    ∀ (cp : Option String) (r : RepetitionRun) (retCode : Int) (out : List String) (fs : FS),
      (∀ p, cp = some p → r.stdout_logfile ≠ p) →
      ((retCode ≠ 0 →
          (executeRun cp r retCode out fs).2 = Except.error (runFailureMsg r retCode) ∧
          hasSubstrS (runFailureMsg r retCode) r.uid = true ∧
          hasSubstrS (runFailureMsg r retCode) (toString r.repetition_attempt) = true ∧
          hasSubstrS (runFailureMsg r retCode) r.cmd = true ∧
          hasSubstrS (runFailureMsg r retCode) (pyStrListRepr (RepetitionRun.args r)) = true ∧
          hasSubstrS (runFailureMsg r retCode) (toString retCode) = true ∧
          ∀ p, cp = some p →
            fsLookup (executeRun cp r retCode out fs).1 p = fsLookup fs p) ∧
       (retCode = 0 →
          (executeRun cp r retCode out fs).2 = Except.ok () ∧
          ∀ p, cp = some p → p ≠ "" →
            fsLookup (executeRun cp r retCode out fs).1 p =
              some ((fsLookup fs p).getD [] ++ [getCheckpointRecord r]))) := by
  intro cp r ret out fs hdisj
  constructor
  · intro hret
    refine ⟨by simp [executeRun, hret], ?_, ?_, ?_, ?_, ?_, ?_⟩
    · have hd : runFailureMsg r ret =
          ("Return code " ++ toString ret ++ " != 0 for run with uid ") ++ r.uid ++
            (" (repetition " ++ toString r.repetition_attempt ++ ") with cmd " ++
              pyQuote ++ r.cmd ++ pyQuote ++ " and args " ++ pyQuote ++
              pyStrListRepr (RepetitionRun.args r) ++ pyQuote) := by
        apply strEq_of_data
        simp only [runFailureMsg, strData_append, List.append_assoc]
      rw [hd]
      exact hasSubstrS_sandwich _ _ _
    · have hd : runFailureMsg r ret =
          ("Return code " ++ toString ret ++ " != 0 for run with uid " ++ r.uid ++
              " (repetition ") ++ toString r.repetition_attempt ++
            (") with cmd " ++ pyQuote ++ r.cmd ++ pyQuote ++ " and args " ++ pyQuote ++
              pyStrListRepr (RepetitionRun.args r) ++ pyQuote) := by
        apply strEq_of_data
        simp only [runFailureMsg, strData_append, List.append_assoc]
      rw [hd]
      exact hasSubstrS_sandwich _ _ _
    · have hd : runFailureMsg r ret =
          ("Return code " ++ toString ret ++ " != 0 for run with uid " ++ r.uid ++
              " (repetition " ++ toString r.repetition_attempt ++ ") with cmd " ++
              pyQuote) ++ r.cmd ++
            (pyQuote ++ " and args " ++ pyQuote ++
              pyStrListRepr (RepetitionRun.args r) ++ pyQuote) := by
        apply strEq_of_data
        simp only [runFailureMsg, strData_append, List.append_assoc]
      rw [hd]
      exact hasSubstrS_sandwich _ _ _
    · have hd : runFailureMsg r ret =
          ("Return code " ++ toString ret ++ " != 0 for run with uid " ++ r.uid ++
              " (repetition " ++ toString r.repetition_attempt ++ ") with cmd " ++
              pyQuote ++ r.cmd ++ pyQuote ++ " and args " ++ pyQuote) ++
            pyStrListRepr (RepetitionRun.args r) ++ pyQuote := by
        apply strEq_of_data
        simp only [runFailureMsg, strData_append, List.append_assoc]
      rw [hd]
      exact hasSubstrS_sandwich _ _ _
    · have hd : runFailureMsg r ret =
          "Return code " ++ toString ret ++
            (" != 0 for run with uid " ++ r.uid ++ " (repetition " ++
              toString r.repetition_attempt ++ ") with cmd " ++ pyQuote ++ r.cmd ++
              pyQuote ++ " and args " ++ pyQuote ++
              pyStrListRepr (RepetitionRun.args r) ++ pyQuote) := by
        apply strEq_of_data
        simp only [runFailureMsg, strData_append, List.append_assoc]
      rw [hd]
      exact hasSubstrS_sandwich _ _ _
    · intro p hp
      have hq := hdisj p hp
      simp only [executeRun, if_pos hret]
      exact fsLookup_write_ne fs p r.stdout_logfile out hq
  · intro h0
    subst h0
    refine ⟨by simp [executeRun], ?_⟩
    intro p hp hpne
    have hq := hdisj p hp
    subst hp
    simp only [executeRun, if_neg (by simp : ¬ ((0 : Int) ≠ 0))]
    show fsLookup (saveToCheckpoint (some p) r (fsWrite fs r.stdout_logfile out)) p = _
    simp only [saveToCheckpoint, if_neg hpne, fsAppendLine]
    rw [fsLookup_write_self, fsLookup_write_ne fs p r.stdout_logfile out hq]

theorem execute_run_checkpoints_iff_success_witness :
    (executeRun (some "ck.txt") c5Run 3 ["x"] []).2 =
      Except.error (runFailureMsg c5Run 3) :=
  ((execute_run_checkpoints_iff_success (some "ck.txt") c5Run 3 ["x"] []
      (fun p hp => by cases hp; decide)).1 (by decide)).1

/-! ### Claim C9 -/

/-- C9: passing `max_parallel_processes = 0` takes the unbounded branch —
`if max_parallel_processes:` tests truthiness, and `0` is falsy like `None` —
so every backlog run is launched at once rather than zero runs. -/
theorem zero_bound_behaves_as_unbounded :
    ∀ (procs : List Task),
      schedulerUsesBoundedLoop (some 0) = false ∧
      schedulerUsesBoundedLoop (some 0) = schedulerUsesBoundedLoop none ∧
      initialLaunchSet (some 0) procs = procs ∧
      initialLaunchSet (some 0) procs = initialLaunchSet none procs ∧
      (procs ≠ [] → initialLaunchSet (some 0) procs ≠ []) := by
  intro procs
  exact ⟨rfl, rfl, rfl, rfl, fun h => h⟩

theorem zero_bound_behaves_as_unbounded_witness :
    initialLaunchSet (some 0) [Except.ok ()] ≠ [] :=
  (zero_bound_behaves_as_unbounded [Except.ok ()]).2.2.2.2 (List.cons_ne_nil _ _)

/-! ### Scheduler lemmas for C6 and C7 -/

theorem refill_slots_length_le (n : Int) (pending backlog : List Task)
    (hp : (pending.length : Int) ≤ n) :
    ((refill n pending backlog).slots.length : Int) ≤ n := by
  have hfree : 0 ≤ n - (pending.length : Int) := by omega
  simp only [refill, pySliceTo, if_pos hfree, List.length_append, List.length_take]
  have h1 : min (n - (pending.length : Int)).toNat backlog.length ≤
      (n - (pending.length : Int)).toNat := Nat.min_le_left _ _
  omega

theorem refill_halt_backlog_empty (n : Int) (pending backlog : List Task) (hn : 1 ≤ n)
    (h : (refill n pending backlog).slots = []) :
    (refill n pending backlog).backlog = [] := by
  simp only [refill] at h ⊢
  obtain ⟨hpend, htake⟩ := List.append_eq_nil.mp h
  subst hpend
  have hfree : 0 ≤ n - ((([] : List Task)).length : Int) := by simp; omega
  rw [pySliceTo, if_pos hfree] at htake
  have hb : backlog = [] := by
    rcases List.take_eq_nil_iff.mp htake with h0 | hb
    · exfalso
      simp at h0 hfree
      omega
    · exact hb
  subst hb
  split <;> simp [pySliceFrom]

theorem refill_union_eq (n : Int) (pending backlog : List Task)
    (hfree : 0 ≤ n - (pending.length : Int)) :
    (refill n pending backlog).slots ++ (refill n pending backlog).backlog =
      pending ++ backlog := by
  simp only [refill, pySliceTo, pySliceFrom, if_pos hfree]
  by_cases hlen : ((backlog.length : Int)) > n - (pending.length : Int)
  · rw [if_pos hlen, List.append_assoc, List.take_append_drop]
  · rw [if_neg hlen, List.append_nil]
    have hle : backlog.length ≤ (n - (pending.length : Int)).toNat := by omega
    rw [List.take_of_length_le hle]

theorem boundedSeed_eq_refill (n : Int) (procs : List Task) :
    boundedSeed n procs = refill n [] procs := by
  simp [boundedSeed, refill]

/-- The conditions the bounded loop's seed state satisfies. -/
theorem boundedSeed_conditions (n : Int) (hn : 1 ≤ n) (procs : List Task) :
    ((boundedSeed n procs).slots.length : Int) ≤ n ∧
    ((boundedSeed n procs).backlog ≠ [] → (boundedSeed n procs).slots ≠ []) ∧
    (boundedSeed n procs).slots ++ (boundedSeed n procs).backlog = procs := by
  rw [boundedSeed_eq_refill]
  refine ⟨?_, ?_, ?_⟩
  · exact refill_slots_length_le n [] procs (by simp; omega)
  · intro hb hslots
    exact hb (refill_halt_backlog_empty n [] procs hn hslots)
  · exact refill_union_eq n [] procs (by simp; omega)

/-- Over a complete bounded-loop trace from any state satisfying the loop
invariants, the concatenated log of `_check_for_exceptions` is a permutation
of the failures of all tasks in flight or in the backlog: every task reaches
a terminal state, and every failure is logged exactly once. -/
theorem schedTrace_log_perm (n : Int) (hn : 1 ≤ n) :
    ∀ (s : SchedState) (log : List String), SchedTrace n s log →
      ((s.slots.length : Int) ≤ n) →
      (s.backlog ≠ [] → s.slots ≠ []) →
      log.Perm (checkForExceptions (s.slots ++ s.backlog)) := by
  intro s log h
  induction h with
  | halt s hs =>
    intro _ hcond
    have hb : s.backlog = [] := by
      by_contra hb
      exact (hcond hb) hs
    rw [hs, hb]
    exact List.Perm.refl _
  | step s done pending log hne hsplit htail ih =>
    intro hle hcond
    have hplen : (pending.length : Int) ≤ n := by
      have := hsplit.length_eq
      simp only [List.length_append] at this
      omega
    have hfree : 0 ≤ n - (pending.length : Int) := by omega
    have hle' : ((refill n pending s.backlog).slots.length : Int) ≤ n :=
      refill_slots_length_le n pending s.backlog hplen
    have hcond' : (refill n pending s.backlog).backlog ≠ [] →
        (refill n pending s.backlog).slots ≠ [] := by
      intro hb hslots
      exact hb (refill_halt_backlog_empty n pending s.backlog hn hslots)
    have hperm := ih hle' hcond'
    rw [refill_union_eq n pending s.backlog hfree] at hperm
    refine List.Perm.trans (List.Perm.append_left _ hperm) ?_
    have heq : checkForExceptions done ++ checkForExceptions (pending ++ s.backlog) =
        checkForExceptions ((done ++ pending) ++ s.backlog) := by
      simp [checkForExceptions, List.append_assoc]
    rw [heq]
    exact List.Perm.filterMap _ ((hsplit.symm).append_right s.backlog)

/-! ### Claim C6 -/

/-- C6: with a bound `N ≥ 1`, the bounded branch seeds exactly
`min(N, backlog size)` runs; a harvest/refill step never grows the in-flight
set beyond `N`; and whenever the loop's exit condition (`run_slots` empty)
becomes true after a step, the backlog is empty as well, so the loop runs
until both are exhausted. -/
theorem bounded_concurrency :
    (∀ (n : Int) (procs : List Task), 0 ≤ n →
        (boundedSeed n procs).slots.length = min n.toNat procs.length) ∧
    (∀ (n : Int) (s : SchedState) (done pending : List Task),
        s.slots.Perm (done ++ pending) → (s.slots.length : Int) ≤ n →
        ((refill n pending s.backlog).slots.length : Int) ≤ n) ∧
    (∀ (n : Int) (pending backlog : List Task), 1 ≤ n →
        (refill n pending backlog).slots = [] →
        (refill n pending backlog).backlog = []) := by
  refine ⟨?_, ?_, ?_⟩
  · intro n procs hn
    simp [boundedSeed, pySliceTo, if_pos hn]
  · intro n s done pending hperm hle
    apply refill_slots_length_le
    have := hperm.length_eq
    simp only [List.length_append] at this
    omega
  · intro n pending backlog hn h
    exact refill_halt_backlog_empty n pending backlog hn h

theorem bounded_concurrency_witness :
    (boundedSeed 2 [Except.ok (), Except.ok (), Except.ok ()]).slots.length =
        min (2 : Int).toNat 3 ∧
    ((refill 2 [Except.ok ()]
        (⟨[Except.ok ()], [Except.ok ()]⟩ : SchedState).backlog).slots.length : Int) ≤ 2 ∧
    (refill 2 [] ([] : List Task)).backlog = [] :=
  ⟨(bounded_concurrency.1 2 [Except.ok (), Except.ok (), Except.ok ()] (by decide)),
   (bounded_concurrency.2.1 2 ⟨[Except.ok ()], [Except.ok ()]⟩ [] [Except.ok ()]
      (List.Perm.refl _) (by simp)),
   (bounded_concurrency.2.2 2 [] [] (by decide) rfl)⟩

/-! ### Claim C7 -/

/-- C7 (counterexample): the claim requires failures to be "captured and
logged at the point of completion (never silently dropped) … in both the
bounded and the unbounded scheduling branches", but the unbounded branch
(`else: await asyncio.wait(processes)`) never retrieves any future's result
and never calls `_check_for_exceptions`: a failed run's error message is
absent from the repeater's log there, while the bounded branch's harvest
would have logged it. -/
theorem unbounded_branch_logs_nothing :
    "boom" ∈ checkForExceptions [Except.error "boom"] ∧
    "boom" ∉ unboundedLoggedErrors [Except.error "boom"] := by
  constructor
  · simp [checkForExceptions]
  · simp [unboundedLoggedErrors]

/-- C7 (amended): in the bounded branch no failure aborts the scheduler and
none is dropped — over any complete trace of the loop, every task (including
all siblings of failed runs) is harvested, and the logged error messages are
exactly the failures of the whole backlog, up to order.  In the unbounded
branch failures likewise do not abort the batch (all futures are awaited),
but the repeater logs no run failure there. -/
theorem failure_isolation :
    (∀ (n : Int) (procs : List Task) (log : List String), 1 ≤ n →
        SchedTrace n (boundedSeed n procs) log →
        log.Perm (checkForExceptions procs)) ∧
    (∀ procs : List Task, unboundedLoggedErrors procs = []) := by
  constructor
  · intro n procs log hn htrace
    obtain ⟨h1, h2, h3⟩ := boundedSeed_conditions n hn procs
    have hperm := schedTrace_log_perm n hn _ log htrace h1 h2
    rwa [h3] at hperm
  · intro procs
    rfl

theorem failure_isolation_witness :
    List.Perm ["boom"] (checkForExceptions [Except.error "boom", Except.ok ()]) := by
  have t0 : SchedTrace 1 (refill 1 [] ((⟨[Except.ok ()], []⟩ : SchedState)).backlog) [] :=
    SchedTrace.halt _ rfl
  have t1 : SchedTrace 1 (⟨[Except.ok ()], []⟩ : SchedState)
      (checkForExceptions [Except.ok ()] ++ []) :=
    SchedTrace.step _ [Except.ok ()] [] [] (List.cons_ne_nil _ _) (List.Perm.refl _) t0
  have t2 : SchedTrace 1 (boundedSeed 1 [Except.error "boom", Except.ok ()])
      (checkForExceptions [Except.error "boom"] ++ (checkForExceptions [Except.ok ()] ++ [])) :=
    SchedTrace.step _ [Except.error "boom"] [] _ (List.cons_ne_nil _ _) (List.Perm.refl _) t1
  exact failure_isolation.1 1 [Except.error "boom", Except.ok ()] _ (by decide) t2

/-! ### Expansion lemmas for C2 -/

theorem mapM_ok_of_forall {α β : Type} (f : α → Except PyErr β) (g : α → β) (l : List α)
    (h : ∀ a ∈ l, f a = Except.ok (g a)) : l.mapM f = Except.ok (l.map g) := by
  induction l with
  | nil => rfl
  | cons a l ih =>
    rw [List.mapM_cons, h a (List.mem_cons_self a l),
      ih (fun b hb => h b (List.mem_cons_of_mem a hb)), List.map_cons]
    rfl

theorem filterMap_id_map_ite {β : Type} (p : Nat → Bool) (f : Nat → β) (l : List Nat) :
    (l.map (fun a => if p a then none else some (f a))).filterMap id =
      (l.filter (fun a => !(p a))).map f := by
  induction l with
  | nil => rfl
  | cons a l ih =>
    by_cases hp : p a <;> simp [hp, ih]

theorem c2_flatten_inner (configs : List AlgConfig)
    (gc : AlgConfig → Nat → Option RepetitionRun) (gc' : AlgConfig → List RepetitionRun)
    (h : ∀ c, ((List.range c.repetitions).map (gc c)).filterMap id = gc' c) :
    ((configs.map (fun c => (List.range c.repetitions).map (gc c))).flatten).filterMap id =
      (configs.map (fun c => gc' c)).flatten := by
  induction configs with
  | nil => rfl
  | cons c cs ih =>
    simp only [List.map_cons, List.flatten_cons, List.filterMap_append, ih, h c]

theorem c2_flatten_eq (datasets : List String) (configs : List AlgConfig)
    (g : String → AlgConfig → Nat → Option RepetitionRun)
    (g' : String → AlgConfig → List RepetitionRun)
    (h : ∀ d c, ((List.range c.repetitions).map (g d c)).filterMap id = g' d c) :
    (((datasets.map (fun d =>
        configs.map (fun c => (List.range c.repetitions).map (g d c)))).flatten).flatten).filterMap id =
      (datasets.map (fun d => (configs.map (fun c => g' d c)).flatten)).flatten := by
  induction datasets with
  | nil => rfl
  | cons d ds ih =>
    simp only [List.map_cons, List.flatten_cons, List.flatten_append,
      List.filterMap_append, ih]
    congr 1
    exact c2_flatten_inner configs (g d) (g' d) (h d)

/-! ### Claim C2 -/

/-- C2: for every configuration and loaded checkpoint set, the expansion
produces, in loop order, exactly one run per (dataset, configuration,
attempt-index) triple whose idempotent key is not in the checkpoint set,
skipping exactly the triples whose key is present, and every run's
`idempotentArgs` is `["--dataset", dataset] ++ split(args)`.  The run tag
and log paths are assumed not to contain the `IDEMPOTENT:` marker (C1's
proviso); `specExpansion` is the spec-side description of the yield. -/
theorem prepare_configurations_expansion :
    ∀ (cfg : RepeaterCfg) (checkpoint : List String) (tag sharedLogDir : String)
      (uidGen : String → AlgConfig → Nat → String) (abspath : String → String),
      (∀ d c i,
        hasSubstrS (volatileChunk (volatileArgsFor tag (logFilePathFor sharedLogDir (uidGen d c i))))
          IDEMPOTENT_MARKER = false) →
      prepareConfigurations cfg checkpoint tag sharedLogDir uidGen abspath =
          Except.ok (specExpansion cfg checkpoint tag sharedLogDir uidGen abspath) ∧
      (∀ d c i uid,
        (buildRun tag sharedLogDir abspath d c i uid).idempotent_args =
          "--dataset" :: d :: pySplitChar ' ' c.args) := by
  intro cfg ckpt tag dir uidGen abspath hfree
  refine ⟨?_, fun d c i uid => rfl⟩
  have hcand : ∀ d c i, expandCandidate ckpt tag dir uidGen abspath d c i =
      Except.ok
        (if ckpt.contains (idempotentKeyStr i c.cmd ("--dataset" :: d :: pySplitChar ' ' c.args))
         then none
         else some (buildRun tag dir abspath d c i (uidGen d c i))) := by
    intro d c i
    have hkey : getIdempotentRun (buildRun tag dir abspath d c i (uidGen d c i)) =
        some (idempotentKeyStr i c.cmd ("--dataset" :: d :: pySplitChar ' ' c.args)) :=
      getIdempotentRun_eq _ (hfree d c i)
    unfold expandCandidate
    rw [hkey]
  have hattempts : ∀ d c,
      (List.range c.repetitions).mapM (expandCandidate ckpt tag dir uidGen abspath d c) =
        Except.ok ((List.range c.repetitions).map (fun i =>
          if ckpt.contains (idempotentKeyStr i c.cmd ("--dataset" :: d :: pySplitChar ' ' c.args))
          then none
          else some (buildRun tag dir abspath d c i (uidGen d c i)))) :=
    fun d c => mapM_ok_of_forall _ _ _ (fun i _ => hcand d c i)
  have hconfigs : ∀ d,
      cfg.configurations.mapM (fun c =>
          (List.range c.repetitions).mapM (expandCandidate ckpt tag dir uidGen abspath d c)) =
        Except.ok (cfg.configurations.map (fun c =>
          (List.range c.repetitions).map (fun i =>
            if ckpt.contains (idempotentKeyStr i c.cmd ("--dataset" :: d :: pySplitChar ' ' c.args))
            then none
            else some (buildRun tag dir abspath d c i (uidGen d c i))))) :=
    fun d => mapM_ok_of_forall _ _ _ (fun c _ => hattempts d c)
  have hdatasets :
      cfg.datasets.mapM (fun d =>
          cfg.configurations.mapM (fun c =>
            (List.range c.repetitions).mapM (expandCandidate ckpt tag dir uidGen abspath d c))) =
        Except.ok (cfg.datasets.map (fun d =>
          cfg.configurations.map (fun c =>
            (List.range c.repetitions).map (fun i =>
              if ckpt.contains (idempotentKeyStr i c.cmd ("--dataset" :: d :: pySplitChar ' ' c.args))
              then none
              else some (buildRun tag dir abspath d c i (uidGen d c i)))))) :=
    mapM_ok_of_forall _ _ _ (fun d _ => hconfigs d)
  show (cfg.datasets.mapM (fun d =>
      cfg.configurations.mapM (fun c =>
        (List.range c.repetitions).mapM
          (expandCandidate ckpt tag dir uidGen abspath d c)))).map
      (fun nested => (nested.flatten.flatten).filterMap id) = _
  rw [hdatasets]
  show Except.ok _ = _
  congr 1
  exact c2_flatten_eq cfg.datasets cfg.configurations
    (fun d c i =>
      if ckpt.contains (idempotentKeyStr i c.cmd ("--dataset" :: d :: pySplitChar ' ' c.args))
      then none
      else some (buildRun tag dir abspath d c i (uidGen d c i)))
    (fun d c =>
      ((List.range c.repetitions).filter (fun i =>
          !(ckpt.contains
              (idempotentKeyStr i c.cmd ("--dataset" :: d :: pySplitChar ' ' c.args))))).map
        (fun i => buildRun tag dir abspath d c i (uidGen d c i)))
    (fun d c => filterMap_id_map_ite _ _ _)

theorem prepare_configurations_expansion_witness :
    prepareConfigurations c2Cfg c2Ckpt "t" "logs" (fun _ _ _ => "u0") id =
        Except.ok (specExpansion c2Cfg c2Ckpt "t" "logs" (fun _ _ _ => "u0") id) ∧
    (buildRun "t" "logs" id "ds" c2Alg 0 "u0").idempotent_args =
        "--dataset" :: "ds" :: pySplitChar ' ' "--a --b" := by
  have h := prepare_configurations_expansion c2Cfg c2Ckpt "t" "logs"
    (fun _ _ _ => "u0") id (fun _ _ _ => rfl)
  exact ⟨h.1, h.2 "ds" c2Alg 0 "u0"⟩

/-! ### Sorting and decoration lemmas for C8 -/

theorem mem_insertDesc {x y : String × PyDateTime} :
    ∀ {l : List (String × PyDateTime)}, y ∈ insertDesc x l ↔ y = x ∨ y ∈ l := by
  intro l
  induction l with
  | nil => simp [insertDesc]
  | cons z zs ih =>
    by_cases h : dtKey x.2 < dtKey z.2
    · simp only [insertDesc, if_pos h, List.mem_cons, ih]
      tauto
    · simp only [insertDesc, if_neg h, List.mem_cons]

theorem mem_sortKeyedDesc {y : String × PyDateTime} :
    ∀ {l : List (String × PyDateTime)}, y ∈ sortKeyedDesc l ↔ y ∈ l := by
  intro l
  induction l with
  | nil => simp [sortKeyedDesc]
  | cons z zs ih => simp [sortKeyedDesc, mem_insertDesc, ih]

theorem head_sortKeyedDesc_max :
    ∀ (l : List (String × PyDateTime)) (h : String × PyDateTime),
      (sortKeyedDesc l).head? = some h → ∀ x ∈ l, dtKey x.2 ≤ dtKey h.2 := by
  intro l
  induction l with
  | nil =>
    intro h hh
    simp [sortKeyedDesc] at hh
  | cons z zs ih =>
    intro h hh x hx
    rw [show sortKeyedDesc (z :: zs) = insertDesc z (sortKeyedDesc zs) from rfl] at hh
    cases hsort : sortKeyedDesc zs with
    | nil =>
      rw [hsort] at hh
      simp only [insertDesc, List.head?_cons, Option.some.injEq] at hh
      subst hh
      rcases List.mem_cons.mp hx with hxz | hxzs
      · subst hxz; exact Nat.le_refl _
      · exact absurd (mem_sortKeyedDesc.mpr hxzs) (by rw [hsort]; simp)
    | cons h' t' =>
      have ihmax : ∀ x ∈ zs, dtKey x.2 ≤ dtKey h'.2 :=
        ih h' (by rw [hsort]; rfl)
      rw [hsort] at hh
      by_cases hlt : dtKey z.2 < dtKey h'.2
      · rw [show insertDesc z (h' :: t') = h' :: insertDesc z t' from by
            simp [insertDesc, hlt]] at hh
        simp only [List.head?_cons, Option.some.injEq] at hh
        subst hh
        rcases List.mem_cons.mp hx with hxz | hxzs
        · subst hxz; exact Nat.le_of_lt hlt
        · exact ihmax x hxzs
      · rw [show insertDesc z (h' :: t') = z :: h' :: t' from by
            simp [insertDesc, hlt]] at hh
        simp only [List.head?_cons, Option.some.injEq] at hh
        subst hh
        rcases List.mem_cons.mp hx with hxz | hxzs
        · subst hxz; exact Nat.le_refl _
        · exact Nat.le_trans (ihmax x hxzs) (Nat.le_of_not_lt hlt)

theorem attachKeys_mem :
    ∀ {fs : List String} {ks : List (String × PyDateTime)},
      attachKeys fs = some ks → ∀ p ∈ ks, p.1 ∈ fs ∧ extract_datetime p.1 = some p.2 := by
  intro fs
  induction fs with
  | nil =>
    intro ks hak p hp
    simp only [attachKeys, Option.some.injEq] at hak
    subst hak
    simp at hp
  | cons f fs ih =>
    intro ks hak p hp
    simp only [attachKeys] at hak
    cases hdt : extract_datetime f with
    | none => rw [hdt] at hak; cases hak
    | some dt =>
      rw [hdt] at hak
      cases hrest : attachKeys fs with
      | none => rw [hrest] at hak; cases hak
      | some rest =>
        rw [hrest] at hak
        simp only [Option.some.injEq] at hak
        subst hak
        rcases List.mem_cons.mp hp with hpf | hpr
        · subst hpf
          exact ⟨List.mem_cons_self _ _, hdt⟩
        · obtain ⟨h1, h2⟩ := ih hrest p hpr
          exact ⟨List.mem_cons_of_mem _ h1, h2⟩

theorem attachKeys_covers :
    ∀ {fs : List String} {ks : List (String × PyDateTime)},
      attachKeys fs = some ks →
      ∀ f ∈ fs, ∃ dt, (f, dt) ∈ ks ∧ extract_datetime f = some dt := by
  intro fs
  induction fs with
  | nil =>
    intro ks _ f hf
    simp at hf
  | cons g fs ih =>
    intro ks hak f hf
    simp only [attachKeys] at hak
    cases hdt : extract_datetime g with
    | none => rw [hdt] at hak; cases hak
    | some dt =>
      rw [hdt] at hak
      cases hrest : attachKeys fs with
      | none => rw [hrest] at hak; cases hak
      | some rest =>
        rw [hrest] at hak
        simp only [Option.some.injEq] at hak
        subst hak
        rcases List.mem_cons.mp hf with hfg | hfr
        · subst hfg
          exact ⟨dt, List.mem_cons_self _ _, hdt⟩
        · obtain ⟨dt', hmem, hdt'⟩ := ih hrest f hfr
          exact ⟨dt', List.mem_cons_of_mem _ hmem, hdt'⟩

/-! ### Claim C8 -/

/-- C8: checkpoint discovery over files matching `<prefix>_*.txt` returns
`none` as the previous checkpoint when nothing matches; every successful
return carries the fresh current path `<dir>/<prefix>_<formatted now>.txt`
in the `YYYY-MM-DDTHH-MM-SS` format; a returned previous checkpoint is a
matching file whose embedded timestamp is maximal among all parsed matches;
and on the concrete January/February example it returns the February file. -/
theorem find_checkpoints_spec :
    (∀ (allFiles : List String) (checkpointDir pfx : String) (now : PyDateTime),
        allFiles.filter (globCkptMatch checkpointDir pfx) = [] →
        find_checkpoints allFiles checkpointDir pfx now =
          Except.ok (none, checkpointDir ++ "/" ++ pfx ++ "_" ++ formatDT now ++ ".txt")) ∧
    (∀ (allFiles : List String) (checkpointDir pfx : String) (now : PyDateTime)
        (res : Option String × String),
        find_checkpoints allFiles checkpointDir pfx now = Except.ok res →
        res.2 = checkpointDir ++ "/" ++ pfx ++ "_" ++ formatDT now ++ ".txt") ∧
    (∀ (allFiles : List String) (checkpointDir pfx : String) (now : PyDateTime)
        (p c : String),
        find_checkpoints allFiles checkpointDir pfx now = Except.ok (some p, c) →
        p ∈ allFiles.filter (globCkptMatch checkpointDir pfx) ∧
        ∀ f ∈ allFiles.filter (globCkptMatch checkpointDir pfx),
          ∀ df dp, extract_datetime f = some df → extract_datetime p = some dp →
            dtKey df ≤ dtKey dp) ∧
    find_checkpoints
        ["ckpts/repeater-checkpoint_2024-01-01T00-00-00.txt",
         "ckpts/repeater-checkpoint_2024-02-01T00-00-00.txt"]
        "ckpts" "repeater-checkpoint" ⟨2024, 3, 1, 0, 0, 0⟩ =
      Except.ok (some "ckpts/repeater-checkpoint_2024-02-01T00-00-00.txt",
        "ckpts/repeater-checkpoint_2024-03-01T00-00-00.txt") := by
  refine ⟨?_, ?_, ?_, ?_⟩
  · intro allFiles checkpointDir pfx now hempty
    unfold find_checkpoints
    rw [hempty]
    rfl
  · intro allFiles checkpointDir pfx now res h
    unfold find_checkpoints at h
    cases hak : attachKeys (allFiles.filter (globCkptMatch checkpointDir pfx)) with
    | none => rw [hak] at h; cases h
    | some keyed =>
      rw [hak] at h
      cases h
      rfl
  · intro allFiles checkpointDir pfx now p c h
    unfold find_checkpoints at h
    cases hak : attachKeys (allFiles.filter (globCkptMatch checkpointDir pfx)) with
    | none => rw [hak] at h; cases h
    | some keyed =>
      rw [hak] at h
      rw [Except.ok.injEq, Prod.mk.injEq] at h
      obtain ⟨hprev, -⟩ := h
      rw [List.head?_map] at hprev
      obtain ⟨h0, hh0, hfst⟩ := Option.map_eq_some'.mp hprev
      have hmemsorted : h0 ∈ sortKeyedDesc keyed := by
        cases hs : sortKeyedDesc keyed with
        | nil => rw [hs] at hh0; cases hh0
        | cons a t =>
          rw [hs] at hh0
          simp only [List.head?_cons, Option.some.injEq] at hh0
          subst hh0
          exact List.mem_cons_self _ _
      have hmemkeyed : h0 ∈ keyed := mem_sortKeyedDesc.mp hmemsorted
      obtain ⟨hfiles, hext⟩ := attachKeys_mem hak h0 hmemkeyed
      subst hfst
      refine ⟨hfiles, ?_⟩
      intro f hf df dp hdf hdp
      obtain ⟨dt, hmem, hdt⟩ := attachKeys_covers hak f hf
      rw [hdf] at hdt
      obtain rfl : df = dt := Option.some.inj hdt
      rw [hdp] at hext
      obtain rfl : dp = h0.2 := Option.some.inj hext
      exact head_sortKeyedDesc_max keyed h0 hh0 (f, df) hmem
  · rfl

theorem find_checkpoints_spec_witness :
    find_checkpoints [] "d" "p" ⟨2024, 1, 1, 0, 0, 0⟩ =
        Except.ok (none, "d/p_2024-01-01T00-00-00.txt") ∧
    "ckpts/repeater-checkpoint_2024-02-01T00-00-00.txt" ∈
      ["ckpts/repeater-checkpoint_2024-01-01T00-00-00.txt",
       "ckpts/repeater-checkpoint_2024-02-01T00-00-00.txt"].filter
        (globCkptMatch "ckpts" "repeater-checkpoint") :=
  ⟨find_checkpoints_spec.1 [] "d" "p" ⟨2024, 1, 1, 0, 0, 0⟩ rfl,
   (find_checkpoints_spec.2.2.1
      ["ckpts/repeater-checkpoint_2024-01-01T00-00-00.txt",
       "ckpts/repeater-checkpoint_2024-02-01T00-00-00.txt"]
      "ckpts" "repeater-checkpoint" ⟨2024, 3, 1, 0, 0, 0⟩
      "ckpts/repeater-checkpoint_2024-02-01T00-00-00.txt"
      "ckpts/repeater-checkpoint_2024-03-01T00-00-00.txt" rfl).1⟩

/-- C10: checkpoint loading is not total.  A file whose single line ends with
the `END` sentinel but does not contain `IDEMPOTENT:` passes the sentinel
filter, then `str.index` raises `ValueError`, so the whole load raises. -/
theorem load_marker_free_line_raises_valueError :
    loadAndPrepareCheckpoint (some "ck.txt") none
      [("ck.txt", ["broken record END"])] = Except.error PyErr.valueError := by
  rfl

end Repeater
